import Mathlib

/-!
Verification of the lttng-analyses memory-event correlator
(`LTTngAnalyzes/mm.py`, class `Mm`) and perf record emitter
(`perf-info.py`, class `Perf`) against their natural-language
specification.

Python dictionaries are embedded as association lists whose lookup
returns the value of the first matching key (Python dicts have unique
keys, so this agrees with dict lookup) and whose item assignment
(`d[k] = v`) replaces the value in place when the key is present and
appends otherwise, preserving Python insertion order.  A Python
`KeyError` raised by a bare subscript on a missing key is made explicit
in an error component of the result.  Mutable objects reachable from a
registry are modelled by returning the registry key together with the
current value and writing the updated value back at that key.
-/

/-- Association list lookup: value of the first entry with the given key
(Python dict subscript, minus the raising behaviour, which callers make
explicit). -/
def alookup {α β : Type} [DecidableEq α] : List (α × β) → α → Option β
  | [], _ => none
  | (k', v) :: rest, k => if k' = k then some v else alookup rest k

/-- Python item assignment `d[k] = v`: replace in place when the key is
present, append at the end otherwise (insertion order). -/
def dset {α β : Type} [DecidableEq α] (l : List (α × β)) (k : α) (v : β) : List (α × β) :=
  if (alookup l k).isSome then
    l.map (fun kv => if kv.1 = k then (k, v) else kv)
  else
    l ++ [(k, v)]

/-- Values stored in a `current_syscall` dictionary by this program:
strings (the syscall name), integers (the scratch `alloc` counter) and
file-descriptor objects carrying `filename` and `fd` attributes. -/
inductive SVal : Type
  | vstr (s : String)
  | vint (n : Int)
  | vfd (filename : String) (fd : Int)
deriving DecidableEq, Repr

/-- Exceptions this code can raise while processing an event. -/
inductive PyErr : Type
  | keyError
  | attributeError
deriving DecidableEq, Repr

/-- A CPU Registry entry: the live scheduling state of one CPU
(`c.current_tid`; -1 = unknown, 0 = idle, positive = live tid). -/
structure CPU : Type where
  current_tid : Int
deriving DecidableEq, Repr

/-- A Thread Registry entry as used by `mm.py`: the per-thread page
counters and the `current_syscall` dictionary (empty list = no syscall
in flight). -/
structure Thread : Type where
  allocated_pages : Int
  freed_pages : Int
  current_syscall : List (String × SVal)
deriving DecidableEq, Repr

/-- The Global MM Stats dictionary `self.mm` with the four keys written
by `Mm.__init__`. -/
structure MmStats : Type where
  allocated_pages : Int
  freed_pages : Int
  count : Int
  dirty : Int
deriving DecidableEq, Repr

/-- The `self.dirty_pages` dictionary: the DirtyPageLog.  An appended
entry snapshots the attributed thread together with the syscall name
value and the `filename`/`fd` attributes of the fd object. -/
structure DirtyPages : Type where
  pages : List (Thread × SVal × String × Int)
  global_nr_dirty : Int
  base_nr_dirty : Int
deriving DecidableEq, Repr

/-- The whole mutable state reachable from an `Mm` object: the shared
`mm`, `cpus`, `tids` and `dirty_pages` structures passed to
`Mm.__init__`.  (`dirty_pages` is always a dictionary: `__init__`
subscripts it, so a `None` value can never reach the handlers.) -/
structure MmState : Type where
  mm : MmStats
  cpus : List (Int × CPU)
  tids : List (Int × Thread)
  dirty_pages : DirtyPages
deriving DecidableEq, Repr

/-- A memory event as consumed by the `Mm` handlers: only the `cpu_id`
field is read (input contract guarantees its presence). -/
structure MEvent : Type where
  cpu_id : Int
deriving DecidableEq, Repr

/-- A writeback-global-dirty-state event: the kernel-reported fields
read by the handler, plus the timestamp used for the printed line. -/
structure WbEvent : Type where
  timestamp : Int
  nr_dirty : Int
  nr_writeback : Int
  nr_dirtied : Int
  nr_written : Int
deriving DecidableEq, Repr

/-- `Mm.get_current_proc`: resolve the thread scheduled on the event
CPU.  `None` when the CPU is unregistered or its `current_tid` is -1;
otherwise the bare subscript `self.tids[c.current_tid]`, which raises
`KeyError` when that tid is not registered.  The returned Python object
reference is modelled as the registry key paired with the value.  The
method reads exactly the `self.cpus` and `self.tids` registries, which
are therefore its two parameters here. -/
def get_current_proc (cpus : List (Int × CPU)) (tids : List (Int × Thread)) (ev : MEvent) :
    Except PyErr (Option (Int × Thread)) :=
  match alookup cpus ev.cpu_id with
  | none => .ok none
  | some c =>
    if c.current_tid = -1 then .ok none
    else
      match alookup tids c.current_tid with
      | none => .error .keyError
      | some t => .ok (some (c.current_tid, t))

/-- One increment of the `vint` payload; any other value is returned
unchanged (Python would raise `TypeError` on `+=`, but this program only
ever stores `vint` values at the key `"alloc"`). -/
def SVal.bumpInt : SVal → SVal
  | .vint n => .vint (n + 1)
  | v => v

/-- The per-thread body of the `page_alloc` loop: skip threads whose
`current_syscall` dictionary is empty, set `"alloc"` to 1 when the key
is absent, increment it otherwise. -/
def syscall_alloc_bump (cs : List (String × SVal)) : List (String × SVal) :=
  if cs.isEmpty then cs
  else
    match alookup cs "alloc" with
    | none => dset cs "alloc" (SVal.vint 1)
    | some v => dset cs "alloc" (SVal.bumpInt v)

/-- One thread of the `page_alloc` loop: its `current_syscall`
dictionary goes through `syscall_alloc_bump`, nothing else changes. -/
def bump_thread (t : Thread) : Thread :=
  { t with current_syscall := syscall_alloc_bump t.current_syscall }

/-- The whole `for p in self.tids.values()` loop of `page_alloc`:
every registered thread goes through `bump_thread`. -/
def bump_tids (l : List (Int × Thread)) : List (Int × Thread) :=
  l.map (fun tp => (tp.1, bump_thread tp.2))

/-- `Mm.page_alloc`: bump the global `count` and `allocated_pages`,
charge the scratch `alloc` counter of every thread with an open syscall,
then give the thread currently scheduled on the event CPU (if any) one
exclusive `allocated_pages` unit.  The state component of the result is
the state at the moment the handler returns or raises. -/
def page_alloc (s : MmState) (ev : MEvent) : MmState × Option PyErr :=
  let s1 : MmState :=
    { s with
      mm := { s.mm with count := s.mm.count + 1, allocated_pages := s.mm.allocated_pages + 1 },
      tids := bump_tids s.tids }
  match get_current_proc s1.cpus s1.tids ev with
  | .error e => (s1, some e)
  | .ok none => (s1, none)
  | .ok (some (tid, t)) =>
    ({ s1 with tids := dset s1.tids tid { t with allocated_pages := t.allocated_pages + 1 } }, none)

/-- `Mm.page_free`: bump the global `freed_pages`; when the global
`count` is 0 return at once (neither the decrement nor the thread
attribution happens); otherwise decrement `count` and give the thread
currently scheduled on the event CPU (if any) one `freed_pages` unit. -/
def page_free (s : MmState) (ev : MEvent) : MmState × Option PyErr :=
  let s1 : MmState := { s with mm := { s.mm with freed_pages := s.mm.freed_pages + 1 } }
  if s1.mm.count = 0 then (s1, none)
  else
    let s2 : MmState := { s1 with mm := { s1.mm with count := s1.mm.count - 1 } }
    match get_current_proc s2.cpus s2.tids ev with
    | .error e => (s2, some e)
    | .ok none => (s2, none)
    | .ok (some (tid, t)) =>
      ({ s2 with tids := dset s2.tids tid { t with freed_pages := t.freed_pages + 1 } }, none)

/-- `Mm.block_dirty_buffer`: bump the global `dirty`; resolve the event
CPU (unregistered: return), treat `current_tid <= 0` as unattributable,
subscript `self.tids[c.current_tid]` (raises `KeyError` when the tid is
unregistered), and when the open syscall carries an `"fd"` binding
append `(thread, syscall name, fd.filename, fd.fd)` to the
DirtyPageLog.  `current_syscall["name"]` raises `KeyError` when absent;
reading `.filename` off a non-fd value raises `AttributeError`. -/
def block_dirty_buffer (s : MmState) (ev : MEvent) : MmState × Option PyErr :=
  let s1 : MmState := { s with mm := { s.mm with dirty := s.mm.dirty + 1 } }
  match alookup s1.cpus ev.cpu_id with
  | none => (s1, none)
  | some c =>
    if c.current_tid ≤ 0 then (s1, none)
    else
      match alookup s1.tids c.current_tid with
      | none => (s1, some .keyError)
      | some p =>
        if p.current_syscall.isEmpty then (s1, none)
        else
          match alookup p.current_syscall "fd" with
          | none => (s1, none)
          | some fdv =>
            match alookup p.current_syscall "name", fdv with
            | some nm, SVal.vfd filename fd =>
              ({ s1 with dirty_pages := { s1.dirty_pages with pages := s1.dirty_pages.pages ++ [(p, nm, filename, fd)] } }, none)
            | none, _ => (s1, some .keyError)
            | some _, _ => (s1, some .attributeError)

/-- `Mm.writeback_global_dirty_state`: emit the summary line data
(`Global.count`, `Global.dirty` and the four kernel-reported fields; the
string formatting of the printed line is I/O and not modelled) and reset
the global `dirty` to 0. -/
def writeback_global_dirty_state (s : MmState) (ev : WbEvent) : MmState × List Int :=
  ({ s with mm := { s.mm with dirty := 0 } },
   [s.mm.count, s.mm.dirty, ev.nr_dirty, ev.nr_writeback, ev.nr_dirtied, ev.nr_written])

/-- An interleaved page-alloc / page-free event stream. -/
inductive MmEvent : Type
  | alloc (cpu_id : Int)
  | free (cpu_id : Int)
deriving DecidableEq, Repr

/-- One step of the event loop over the two page handlers.  The state
component is kept even when the handler raises: it is the state of the
shared dictionaries at that moment. -/
def mm_step (s : MmState) : MmEvent → MmState
  | .alloc c => (page_alloc s ⟨c⟩).1
  | .free c => (page_free s ⟨c⟩).1

/-- The state built by `Mm.__init__` around given `cpus` and `tids`
registries: the four global counters zeroed, the DirtyPageLog empty. -/
def mm_init (cpus : List (Int × CPU)) (tids : List (Int × Thread)) : MmState :=
  { mm := { allocated_pages := 0, freed_pages := 0, count := 0, dirty := 0 },
    cpus := cpus,
    tids := tids,
    dirty_pages := { pages := [], global_nr_dirty := -1, base_nr_dirty := -1 } }

/-- Run a page-alloc / page-free event stream from the initial state. -/
def mm_run (cpus : List (Int × CPU)) (tids : List (Int × Thread)) (events : List MmEvent) : MmState :=
  events.foldl mm_step (mm_init cpus tids)

/-- Whether a registered tid is the CPU-local attribution target of an
event: the event CPU is registered, its `current_tid` equals that tid,
and the -1 sentinel is excluded. -/
def alloc_target (s : MmState) (ev : MEvent) (tid : Int) : Bool :=
  match alookup s.cpus ev.cpu_id with
  | none => false
  | some c => c.current_tid = tid && !(c.current_tid = -1)

/-! ## Association list lemmas -/

theorem alookup_map_snd {α β γ : Type} [DecidableEq α] (f : β → γ) (l : List (α × β)) (k : α) :
    alookup (l.map (fun kv => (kv.1, f kv.2))) k = (alookup l k).map f := by
  induction l with
  | nil => rfl
  | cons hd tl ih =>
    obtain ⟨k', v⟩ := hd
    by_cases h : k' = k
    · simp [alookup, h]
    · simp [alookup, h, ih]

theorem alookup_bump_tids (l : List (Int × Thread)) (k : Int) :
    alookup (bump_tids l) k = (alookup l k).map bump_thread :=
  alookup_map_snd bump_thread l k

theorem alookup_setmap {α β : Type} [DecidableEq α] (l : List (α × β)) (k k' : α) (v : β) :
    alookup (l.map (fun kv => if kv.1 = k then (k, v) else kv)) k'
      = if k' = k then (alookup l k).map (fun _ => v) else alookup l k' := by
  induction l with
  | nil => by_cases h : k' = k <;> simp [alookup, h]
  | cons hd tl ih =>
    obtain ⟨k2, v2⟩ := hd
    dsimp only [List.map_cons]
    by_cases h1 : k2 = k
    · subst h1
      rw [if_pos rfl]
      by_cases h2 : k' = k2
      · subst h2
        simp [alookup, ih]
      · simp [alookup, h2, Ne.symm h2, ih]
    · rw [if_neg h1]
      by_cases h2 : k' = k
      · subst h2
        simp [alookup, h1, ih]
      · by_cases h3 : k2 = k'
        · simp [alookup, h3, h2]
        · simp [alookup, h3, h2, ih]

theorem alookup_append_of_isSome {α β : Type} [DecidableEq α] (l l2 : List (α × β)) (k : α)
    (h : (alookup l k).isSome) : alookup (l ++ l2) k = alookup l k := by
  induction l with
  | nil => simp [alookup] at h
  | cons hd tl ih =>
    obtain ⟨k2, v2⟩ := hd
    by_cases h1 : k2 = k
    · simp [alookup, h1]
    · simp only [alookup, h1, if_false] at h ⊢
      exact ih h

theorem alookup_append_of_none {α β : Type} [DecidableEq α] (l l2 : List (α × β)) (k : α)
    (h : alookup l k = none) : alookup (l ++ l2) k = alookup l2 k := by
  induction l with
  | nil => rfl
  | cons hd tl ih =>
    obtain ⟨k2, v2⟩ := hd
    by_cases h1 : k2 = k
    · simp [alookup, h1] at h
    · simp only [alookup, h1, if_false] at h ⊢
      exact ih h

theorem alookup_dset_self {α β : Type} [DecidableEq α] (l : List (α × β)) (k : α) (v : β) :
    alookup (dset l k v) k = some v := by
  unfold dset
  by_cases hs : (alookup l k).isSome
  · obtain ⟨w, hw⟩ := Option.isSome_iff_exists.mp hs
    simp [hs, alookup_setmap, hw]
  · have hn : alookup l k = none := Option.not_isSome_iff_eq_none.mp hs
    simp only [hn, Option.isSome_none, Bool.false_eq_true, if_false]
    rw [alookup_append_of_none l [(k, v)] k hn]
    simp [alookup]

theorem alookup_dset_ne {α β : Type} [DecidableEq α] (l : List (α × β)) (k k' : α) (v : β)
    (h : k' ≠ k) : alookup (dset l k v) k' = alookup l k' := by
  unfold dset
  by_cases hs : (alookup l k).isSome
  · simp [hs, alookup_setmap, h]
  · have hn : alookup l k = none := Option.not_isSome_iff_eq_none.mp hs
    simp only [hn, Option.isSome_none, Bool.false_eq_true, if_false]
    by_cases h2 : (alookup l k').isSome
    · exact alookup_append_of_isSome l [(k, v)] k' h2
    · have hn2 : alookup l k' = none := Option.not_isSome_iff_eq_none.mp h2
      rw [alookup_append_of_none l [(k, v)] k' hn2, hn2]
      simp [alookup, Ne.symm h]

/-! ## Facts about the Mm handlers -/

theorem syscall_alloc_bump_empty (cs : List (String × SVal)) (h : cs.isEmpty = true) :
    syscall_alloc_bump cs = cs := by
  simp [syscall_alloc_bump, h]

theorem syscall_alloc_bump_alloc (cs : List (String × SVal)) (h : cs.isEmpty = false) :
    alookup (syscall_alloc_bump cs) "alloc"
      = some (match alookup cs "alloc" with
              | none => SVal.vint 1
              | some v => SVal.bumpInt v) := by
  unfold syscall_alloc_bump
  simp only [h, Bool.false_eq_true, if_false]
  cases halloc : alookup cs "alloc" with
  | none => simp [halloc, alookup_dset_self]
  | some v => simp [halloc, alookup_dset_self]

theorem page_alloc_count (s : MmState) (ev : MEvent) :
    (page_alloc s ev).1.mm.count = s.mm.count + 1 := by
  unfold page_alloc
  dsimp only
  split <;> rfl

theorem page_alloc_allocated (s : MmState) (ev : MEvent) :
    (page_alloc s ev).1.mm.allocated_pages = s.mm.allocated_pages + 1 := by
  unfold page_alloc
  dsimp only
  split <;> rfl

theorem page_free_count (s : MmState) (ev : MEvent) :
    (page_free s ev).1.mm.count = if s.mm.count = 0 then s.mm.count else s.mm.count - 1 := by
  unfold page_free
  dsimp only
  by_cases h : s.mm.count = 0
  · simp [h]
  · simp only [h, if_false]
    split <;> rfl

theorem page_free_freed (s : MmState) (ev : MEvent) :
    (page_free s ev).1.mm.freed_pages = s.mm.freed_pages + 1 := by
  unfold page_free
  dsimp only
  by_cases h : s.mm.count = 0
  · simp [h]
  · simp only [h, if_false]
    split <;> rfl

theorem mm_count_nonneg_step (s : MmState) (e : MmEvent) (h : 0 ≤ s.mm.count) :
    0 ≤ (mm_step s e).mm.count := by
  cases e with
  | alloc c =>
    show 0 ≤ (page_alloc s ⟨c⟩).1.mm.count
    rw [page_alloc_count]
    omega
  | free c =>
    show 0 ≤ (page_free s ⟨c⟩).1.mm.count
    rw [page_free_count]
    split <;> omega

theorem mm_foldl_count_nonneg (events : List MmEvent) :
    ∀ s : MmState, 0 ≤ s.mm.count → 0 ≤ (events.foldl mm_step s).mm.count := by
  induction events with
  | nil => intro s h; simpa using h
  | cons e rest ih => intro s h; exact ih _ (mm_count_nonneg_step s e h)

/-- C3: for every interleaved sequence of page-alloc and page-free
events, in any order and starting from the initial state (over any
starting CPU and Thread registries), the global in-flight counter
`Global.count` is at least 0 after processing each event.  Because the
event list is arbitrary, every prefix of a longer run is an instance,
so the bound holds after each intermediate event as well. -/
theorem c3_count_nonneg (cpus : List (Int × CPU)) (tids : List (Int × Thread))
    (events : List MmEvent) : 0 ≤ (mm_run cpus tids events).mm.count :=
  mm_foldl_count_nonneg events (mm_init cpus tids) (le_refl 0)

/-- C7: immediately after processing any writeback-global-dirty-state
event, the global `dirty` counter equals 0, regardless of its value
before the event. -/
theorem c7_writeback_epoch_reset (s : MmState) (ev : WbEvent) :
    (writeback_global_dirty_state s ev).1.mm.dirty = 0 := rfl

/-- C10: processing a writeback-global-dirty-state event mutates only
the `dirty` field of the Global MM Stats: `allocated_pages`,
`freed_pages` and `count`, the whole Thread Registry, the whole CPU
Registry, and the DirtyPageLog are all unchanged. -/
theorem c10_writeback_frame (s : MmState) (ev : WbEvent) :
    (writeback_global_dirty_state s ev).1.mm.allocated_pages = s.mm.allocated_pages ∧
    (writeback_global_dirty_state s ev).1.mm.freed_pages = s.mm.freed_pages ∧
    (writeback_global_dirty_state s ev).1.mm.count = s.mm.count ∧
    (writeback_global_dirty_state s ev).1.tids = s.tids ∧
    (writeback_global_dirty_state s ev).1.cpus = s.cpus ∧
    (writeback_global_dirty_state s ev).1.dirty_pages = s.dirty_pages :=
  ⟨rfl, rfl, rfl, rfl, rfl, rfl⟩

/-! ## C9: asymmetric handling of the idle sentinel -/

/-- C9: the idle sentinel is handled asymmetrically.  With the event
CPU registered and its `current_tid` equal to 0, `block_dirty_buffer`
treats the CPU as unattributable (its `current_tid <= 0` test): the
handler only bumps the global `dirty` counter and raises nothing.
`page_alloc` and `page_free` instead go through `get_current_proc`,
which only filters out -1, so with `current_tid = 0` it proceeds to
subscript the Thread Registry at tid 0: it returns the registered
thread 0 when there is one and raises `KeyError` otherwise. -/
theorem c9_idle_sentinel_asymmetry (s : MmState) (ev : MEvent) (c : CPU)
    (h1 : alookup s.cpus ev.cpu_id = some c) (h2 : c.current_tid = 0) :
    (block_dirty_buffer s ev).1 = { s with mm := { s.mm with dirty := s.mm.dirty + 1 } } ∧
    (block_dirty_buffer s ev).2 = none ∧
    get_current_proc s.cpus s.tids ev
      = (match alookup s.tids 0 with
         | none => .error .keyError
         | some p => .ok (some (0, p))) := by
  refine ⟨?_, ?_, ?_⟩
  · simp [block_dirty_buffer, h1, h2]
  · simp [block_dirty_buffer, h1, h2]
  · cases ht : alookup s.tids 0 with
    | none => simp [get_current_proc, h1, h2, ht]
    | some p => simp [get_current_proc, h1, h2, ht]

/-- Concrete state for the C9 witness: CPU 3 registered with
`current_tid = 0` and a thread registered under tid 0. -/
def c9_state : MmState :=
  { mm := ⟨0, 0, 0, 0⟩,
    cpus := [(3, ⟨0⟩)],
    tids := [(0, ⟨0, 0, []⟩)],
    dirty_pages := ⟨[], -1, -1⟩ }

theorem c9_witness :
    alookup c9_state.cpus 3 = some ⟨0⟩ ∧
    (CPU.mk 0).current_tid = 0 ∧
    ((block_dirty_buffer c9_state ⟨3⟩).1
        = { c9_state with mm := { c9_state.mm with dirty := c9_state.mm.dirty + 1 } } ∧
     (block_dirty_buffer c9_state ⟨3⟩).2 = none ∧
     get_current_proc c9_state.cpus c9_state.tids ⟨3⟩
       = (match alookup c9_state.tids 0 with
          | none => .error .keyError
          | some p => .ok (some (0, p)))) :=
  ⟨by decide, rfl, c9_idle_sentinel_asymmetry c9_state ⟨3⟩ ⟨0⟩ (by decide) rfl⟩

/-! ## C2: unknown ids during attribution -/

/-- Concrete state for C2: CPU 0 is registered and points at tid 5,
which is not in the Thread Registry; the global count is 1. -/
def c2_state : MmState :=
  { mm := ⟨0, 0, 1, 0⟩,
    cpus := [(0, ⟨5⟩)],
    tids := [],
    dirty_pages := ⟨[], -1, -1⟩ }

/-- Empty-registry state for the unseen-CPU half of C2. -/
def c2_state2 : MmState :=
  { mm := ⟨0, 0, 1, 0⟩,
    cpus := [],
    tids := [],
    dirty_pages := ⟨[], -1, -1⟩ }

/-- C2 counterexample: the claim says an event whose CPU `current_tid`
is an unregistered tid has its attribution step skipped without
raising.  In this concrete state (CPU 0 registered, `current_tid = 5`,
thread 5 unregistered) both `page_alloc` and `block_dirty_buffer`
raise `KeyError` from the bare `self.tids[c.current_tid]` subscript. -/
theorem c2_counterexample :
    alookup c2_state.cpus 0 = some ⟨5⟩ ∧
    alookup c2_state.tids 5 = none ∧
    (page_alloc c2_state ⟨0⟩).2 = some PyErr.keyError ∧
    (block_dirty_buffer c2_state ⟨0⟩).2 = some PyErr.keyError := by
  decide

/-- C2 (amended): events referencing a CPU never seen do skip the
attribution step without raising, and leave the registries and the
DirtyPageLog untouched; but when the event CPU is registered and its
`current_tid` is a tid that is not in the Thread Registry, the
subscript `self.tids[c.current_tid]` raises `KeyError`, in `page_alloc`
whenever `current_tid` is not -1, in `page_free` additionally only when
the global count is nonzero (otherwise it returns before the lookup),
and in `block_dirty_buffer` whenever `current_tid` is positive. -/
theorem c2_amended (s : MmState) (ev : MEvent) (c : CPU)
    (h1 : alookup s.cpus ev.cpu_id = some c)
    (h2 : alookup s.tids c.current_tid = none)
    (h3 : c.current_tid ≠ -1)
    (s2 : MmState) (ev2 : MEvent)
    (h4 : alookup s2.cpus ev2.cpu_id = none) :
    (page_alloc s ev).2 = some PyErr.keyError ∧
    (s.mm.count ≠ 0 → (page_free s ev).2 = some PyErr.keyError) ∧
    (0 < c.current_tid → (block_dirty_buffer s ev).2 = some PyErr.keyError) ∧
    (page_alloc s2 ev2).2 = none ∧
    (page_free s2 ev2).2 = none ∧
    (block_dirty_buffer s2 ev2).2 = none ∧
    (page_free s2 ev2).1.tids = s2.tids ∧
    (block_dirty_buffer s2 ev2).1.dirty_pages = s2.dirty_pages := by
  refine ⟨?_, ?_, ?_, ?_, ?_, ?_, ?_, ?_⟩
  · simp [page_alloc, get_current_proc, h1, h2, h3, alookup_bump_tids]
  · intro hc
    simp [page_free, get_current_proc, h1, h2, h3, hc]
  · intro hpos
    have hle : ¬(c.current_tid ≤ 0) := by omega
    simp [block_dirty_buffer, h1, h2, hle]
  · simp [page_alloc, get_current_proc, h4]
  · by_cases hc : s2.mm.count = 0 <;> simp [page_free, get_current_proc, h4, hc]
  · simp [block_dirty_buffer, h4]
  · by_cases hc : s2.mm.count = 0 <;> simp [page_free, get_current_proc, h4, hc]
  · simp [block_dirty_buffer, h4]

theorem c2_amended_witness :
    alookup c2_state.cpus 0 = some ⟨5⟩ ∧
    alookup c2_state.tids (CPU.mk 5).current_tid = none ∧
    (CPU.mk 5).current_tid ≠ -1 ∧
    alookup c2_state2.cpus 1 = none ∧
    ((page_alloc c2_state ⟨0⟩).2 = some PyErr.keyError ∧
     (c2_state.mm.count ≠ 0 → (page_free c2_state ⟨0⟩).2 = some PyErr.keyError) ∧
     (0 < (CPU.mk 5).current_tid → (block_dirty_buffer c2_state ⟨0⟩).2 = some PyErr.keyError) ∧
     (page_alloc c2_state2 ⟨1⟩).2 = none ∧
     (page_free c2_state2 ⟨1⟩).2 = none ∧
     (block_dirty_buffer c2_state2 ⟨1⟩).2 = none ∧
     (page_free c2_state2 ⟨1⟩).1.tids = c2_state2.tids ∧
     (block_dirty_buffer c2_state2 ⟨1⟩).1.dirty_pages = c2_state2.dirty_pages) :=
  ⟨by decide, by decide, by decide, by decide,
   c2_amended c2_state ⟨0⟩ ⟨5⟩ (by decide) (by decide) (by decide) c2_state2 ⟨1⟩ (by decide)⟩

/-! ## C1: page_free and the skipped decrement -/

/-- Concrete state for the C1 counterexample: global count already 0,
CPU 0 registered with `current_tid = 7`, thread 7 registered. -/
def c1_state : MmState :=
  { mm := ⟨0, 0, 0, 0⟩,
    cpus := [(0, ⟨7⟩)],
    tids := [(7, ⟨0, 0, []⟩)],
    dirty_pages := ⟨[], -1, -1⟩ }

/-- C1 counterexample: the claim says the thread attribution of
`page_free` happens independently of whether the global decrement was
skipped.  In this state a thread is attributable through the event CPU
(CPU 0 registered, `current_tid = 7` is not the unknown sentinel and
tid 7 is registered), yet because the global count is 0 the handler
returns right after bumping `freed_pages`: the Thread Registry is
untouched, so thread 7 does not get its `freed_pages` increment. -/
theorem c1_counterexample :
    c1_state.mm.count = 0 ∧
    alookup c1_state.cpus 0 = some ⟨7⟩ ∧
    alookup c1_state.tids 7 = some ⟨0, 0, []⟩ ∧
    (page_free c1_state ⟨0⟩).2 = none ∧
    (page_free c1_state ⟨0⟩).1.mm.freed_pages = 1 ∧
    (page_free c1_state ⟨0⟩).1.tids = c1_state.tids := by
  decide

/-- C1 (amended): `page_free` always increments `Global.freed_pages`;
when `Global.count` is 0 it returns immediately afterwards, so both the
decrement and the thread attribution are skipped (the whole state
change is the `freed_pages` bump); when `Global.count` is nonzero it
decrements `Global.count` and then increments the `freed_pages` counter
of the thread attributable via the event CPU, if there is one.  Thread
attribution therefore happens only when the global decrement was
performed, not independently of it. -/
theorem c1_page_free_amended (s : MmState) (ev : MEvent) (tid : Int) (p : Thread)
    (hp : alookup s.tids tid = some p) :
    (page_free s ev).1.mm.freed_pages = s.mm.freed_pages + 1 ∧
    (s.mm.count = 0 →
      (page_free s ev).1 = { s with mm := { s.mm with freed_pages := s.mm.freed_pages + 1 } } ∧
      (page_free s ev).2 = none) ∧
    (s.mm.count ≠ 0 →
      (page_free s ev).1.mm.count = s.mm.count - 1 ∧
      ∃ q, alookup (page_free s ev).1.tids tid = some q ∧
        q.allocated_pages = p.allocated_pages ∧
        q.current_syscall = p.current_syscall ∧
        q.freed_pages = p.freed_pages + (if alloc_target s ev tid then 1 else 0)) := by
  refine ⟨page_free_freed s ev, ?_, ?_⟩
  · intro hc
    constructor <;> simp [page_free, hc]
  · intro hc
    refine ⟨by rw [page_free_count]; simp [hc], ?_⟩
    unfold page_free get_current_proc
    dsimp only
    rw [if_neg hc]
    cases hcpu : alookup s.cpus ev.cpu_id with
    | none =>
      refine ⟨p, hp, rfl, rfl, ?_⟩
      simp [alloc_target, hcpu]
    | some c =>
      dsimp only
      by_cases hm : c.current_tid = -1
      · rw [if_pos hm]
        refine ⟨p, hp, rfl, rfl, ?_⟩
        simp [alloc_target, hcpu, hm]
      · rw [if_neg hm]
        cases ht : alookup s.tids c.current_tid with
        | none =>
          have hne : ¬(c.current_tid = tid) := by
            intro e
            rw [e, hp] at ht
            exact Option.noConfusion ht
          refine ⟨p, hp, rfl, rfl, ?_⟩
          simp [alloc_target, hcpu, hne]
        | some t =>
          by_cases heq : c.current_tid = tid
          · have h5 : t = p := by
              rw [heq] at ht
              rw [ht] at hp
              exact Option.some.inj hp
            refine ⟨{ t with freed_pages := t.freed_pages + 1 }, ?_, ?_, ?_, ?_⟩
            · dsimp only
              rw [heq]
              exact alookup_dset_self s.tids tid _
            · simp [h5]
            · simp [h5]
            · have hm2 : ¬(tid = -1) := heq ▸ hm
              simp [alloc_target, hcpu, heq, hm2, h5]
          · refine ⟨p, ?_, rfl, rfl, ?_⟩
            · dsimp only
              rw [alookup_dset_ne s.tids c.current_tid tid _ (fun e => heq e.symm)]
              exact hp
            · simp [alloc_target, hcpu, heq]

/-- Concrete state for the C1 witness: like `c1_state` but with a
nonzero global count, so the attribution branch is exercised. -/
def c1_state2 : MmState :=
  { mm := ⟨0, 0, 1, 0⟩,
    cpus := [(0, ⟨7⟩)],
    tids := [(7, ⟨0, 0, []⟩)],
    dirty_pages := ⟨[], -1, -1⟩ }

theorem c1_page_free_amended_witness :
    alookup c1_state2.tids 7 = some ⟨0, 0, []⟩ ∧
    ((page_free c1_state2 ⟨0⟩).1.mm.freed_pages = c1_state2.mm.freed_pages + 1 ∧
     (c1_state2.mm.count = 0 →
       (page_free c1_state2 ⟨0⟩).1
          = { c1_state2 with mm := { c1_state2.mm with freed_pages := c1_state2.mm.freed_pages + 1 } } ∧
       (page_free c1_state2 ⟨0⟩).2 = none) ∧
     (c1_state2.mm.count ≠ 0 →
       (page_free c1_state2 ⟨0⟩).1.mm.count = c1_state2.mm.count - 1 ∧
       ∃ q, alookup (page_free c1_state2 ⟨0⟩).1.tids 7 = some q ∧
         q.allocated_pages = (Thread.mk 0 0 []).allocated_pages ∧
         q.current_syscall = (Thread.mk 0 0 []).current_syscall ∧
         q.freed_pages = (Thread.mk 0 0 []).freed_pages
           + (if alloc_target c1_state2 ⟨0⟩ 7 then 1 else 0))) :=
  ⟨by decide, c1_page_free_amended c1_state2 ⟨0⟩ 7 ⟨0, 0, []⟩ (by decide)⟩

/-! ## C6: page_alloc -/

/-- C6: for every page-alloc event, `page_alloc` increments the global
`allocated_pages` and `count` by one each; every registered thread with
a non-empty (open) `current_syscall` dictionary gets its scratch
`"alloc"` counter incremented by one (initialised to 1 when the key is
absent), while threads with an empty dictionary are untouched; and the
thread currently scheduled on the event CPU gets exactly one exclusive
`allocated_pages` unit, with the -1 sentinel (and likewise an
unregistered CPU, or a `current_tid` naming some other thread) yielding
no exclusive unit for this thread. -/
theorem c6_page_alloc (s : MmState) (ev : MEvent) (tid : Int) (p : Thread)
    (hp : alookup s.tids tid = some p) :
    (page_alloc s ev).1.mm.allocated_pages = s.mm.allocated_pages + 1 ∧
    (page_alloc s ev).1.mm.count = s.mm.count + 1 ∧
    ∃ q, alookup (page_alloc s ev).1.tids tid = some q ∧
      q.freed_pages = p.freed_pages ∧
      (p.current_syscall.isEmpty = true → q.current_syscall = p.current_syscall) ∧
      (p.current_syscall.isEmpty = false →
        alookup q.current_syscall "alloc"
          = some (match alookup p.current_syscall "alloc" with
                  | none => SVal.vint 1
                  | some v => SVal.bumpInt v)) ∧
      q.allocated_pages = p.allocated_pages + (if alloc_target s ev tid then 1 else 0) := by
  refine ⟨page_alloc_allocated s ev, page_alloc_count s ev, ?_⟩
  have hbp : alookup (bump_tids s.tids) tid = some (bump_thread p) := by
    rw [alookup_bump_tids, hp]
    rfl
  unfold page_alloc get_current_proc
  dsimp only
  cases hcpu : alookup s.cpus ev.cpu_id with
  | none =>
    refine ⟨bump_thread p, hbp, rfl, fun h => syscall_alloc_bump_empty _ h,
      fun h => syscall_alloc_bump_alloc _ h, ?_⟩
    simp [bump_thread, alloc_target, hcpu]
  | some c =>
    dsimp only
    by_cases hm : c.current_tid = -1
    · rw [if_pos hm]
      refine ⟨bump_thread p, hbp, rfl, fun h => syscall_alloc_bump_empty _ h,
        fun h => syscall_alloc_bump_alloc _ h, ?_⟩
      simp [bump_thread, alloc_target, hcpu, hm]
    · rw [if_neg hm]
      cases ht : alookup (bump_tids s.tids) c.current_tid with
      | none =>
        have hne : ¬(c.current_tid = tid) := by
          intro e
          rw [e, hbp] at ht
          exact Option.noConfusion ht
        refine ⟨bump_thread p, hbp, rfl, fun h => syscall_alloc_bump_empty _ h,
          fun h => syscall_alloc_bump_alloc _ h, ?_⟩
        simp [bump_thread, alloc_target, hcpu, hne]
      | some t =>
        by_cases heq : c.current_tid = tid
        · have h5 : t = bump_thread p := by
            rw [heq] at ht
            rw [ht] at hbp
            exact Option.some.inj hbp
          refine ⟨{ t with allocated_pages := t.allocated_pages + 1 }, ?_, ?_, ?_, ?_, ?_⟩
          · dsimp only
            rw [heq]
            exact alookup_dset_self _ tid _
          · simp [h5, bump_thread]
          · intro h
            simp [h5, bump_thread, syscall_alloc_bump_empty _ h]
          · intro h
            simp only [h5, bump_thread]
            exact syscall_alloc_bump_alloc _ h
          · have hm2 : ¬(tid = -1) := heq ▸ hm
            simp [h5, bump_thread, alloc_target, hcpu, heq, hm2]
        · refine ⟨bump_thread p, ?_, rfl, fun h => syscall_alloc_bump_empty _ h,
            fun h => syscall_alloc_bump_alloc _ h, ?_⟩
          · dsimp only
            rw [alookup_dset_ne _ c.current_tid tid _ (fun e => heq e.symm)]
            exact hbp
          · simp [bump_thread, alloc_target, hcpu, heq]

/-- Concrete state for the C6 witness: thread 7 is scheduled on CPU 0
and has an open syscall without an `"alloc"` key yet. -/
def c6_state : MmState :=
  { mm := ⟨0, 0, 0, 0⟩,
    cpus := [(0, ⟨7⟩)],
    tids := [(7, ⟨0, 0, [("name", SVal.vstr "open")]⟩)],
    dirty_pages := ⟨[], -1, -1⟩ }

theorem c6_page_alloc_witness :
    alookup c6_state.tids 7 = some ⟨0, 0, [("name", SVal.vstr "open")]⟩ ∧
    ((page_alloc c6_state ⟨0⟩).1.mm.allocated_pages = c6_state.mm.allocated_pages + 1 ∧
     (page_alloc c6_state ⟨0⟩).1.mm.count = c6_state.mm.count + 1 ∧
     ∃ q, alookup (page_alloc c6_state ⟨0⟩).1.tids 7 = some q ∧
       q.freed_pages = (Thread.mk 0 0 [("name", SVal.vstr "open")]).freed_pages ∧
       ((Thread.mk 0 0 [("name", SVal.vstr "open")]).current_syscall.isEmpty = true →
         q.current_syscall = (Thread.mk 0 0 [("name", SVal.vstr "open")]).current_syscall) ∧
       ((Thread.mk 0 0 [("name", SVal.vstr "open")]).current_syscall.isEmpty = false →
         alookup q.current_syscall "alloc"
           = some (match alookup (Thread.mk 0 0 [("name", SVal.vstr "open")]).current_syscall "alloc" with
                   | none => SVal.vint 1
                   | some v => SVal.bumpInt v)) ∧
       q.allocated_pages = (Thread.mk 0 0 [("name", SVal.vstr "open")]).allocated_pages
         + (if alloc_target c6_state ⟨0⟩ 7 then 1 else 0)) :=
  ⟨by decide, c6_page_alloc c6_state ⟨0⟩ 7 ⟨0, 0, [("name", SVal.vstr "open")]⟩ (by decide)⟩

/-! ## The Perf record emitter (perf-info.py) -/

/-- A scheduler-state Thread Registry entry as read by the emitter
(`self.state.tids[tid]`).  Modelled from the spec for the parts of
`LTTngAnalyzes/state.py` that are not in the repository snapshot: a
Thread carries `pid`, `comm` and the mapping from performance-counter
name to last-observed cumulative value (`perf`). -/
structure TidState : Type where
  pid : Int
  comm : String
  perf : List (String × Int)
deriving DecidableEq, Repr

/-- The configuration surface (`self.args` after the post-processing in
`__main__`): `tid` is `None` or a list of tid strings, `pname` is
`None` or a process name, `start` and `end` are `None` or nanosecond
timestamps, `json` and `mongo` are `None` or the sink path/address
string (`end` is a Lean keyword, hence `end_arg`). -/
structure Args : Type where
  tid : Option (List String)
  pname : Option String
  start : Option Int
  end_arg : Option Int
  unixtime : Bool
  delta : Bool
  json : Option String
  mongo : Option String
  quiet : Bool
deriving DecidableEq, Repr

/-- Python truthiness of an optional string (`if self.args.json`): a
`None` and an empty string are falsy. -/
def truthyStr : Option String → Bool
  | none => false
  | some str => !str.isEmpty

/-- The first filter of `output_perf`:
`if self.args.tid and str(tid) not in self.args.tid` (an unset or empty
allow-list is falsy, so it drops nothing). -/
def tidDrop : Option (List String) → Int → Bool
  | none, _ => false
  | some l, tid => !l.isEmpty && !l.contains (toString tid)

/-- The second filter:
`if self.args.pname is not None and self.args.pname != comm`. -/
def pnameDrop : Option String → String → Bool
  | none, _ => false
  | some pn, comm => pn != comm

/-- The lower time-window bound:
`if self.args.start and endtime < self.args.start` (a `None` and a 0
bound are falsy, so they drop nothing). -/
def startDrop : Option Int → Int → Bool
  | none, _ => false
  | some st, ts => st != 0 && decide (ts < st)

/-- The upper time-window bound:
`if self.args.end and endtime > self.args.end`. -/
def endDrop : Option Int → Int → Bool
  | none, _ => false
  | some en, ts => en != 0 && decide (ts > en)

/-- Python `str.startswith`, as a character-level prefix test (the
built-in `String.startsWith` is compiled by well-founded recursion and
does not evaluate inside the kernel). -/
def startswith (s pre : String) : Bool := pre.data.isPrefixOf s.data

/-- The counter-type filter of `process_event`:
`if self.types and context not in self.types: continue`. -/
def typesSkip : Option (List String) → String → Bool
  | none, _ => false
  | some l, ctx => !l.isEmpty && !l.contains ctx

/-- The dictionary `d` built by `process_event` and handed to
`output_perf`: the fixed keys `ts` and `tid` plus one entry per
surviving counter key (all of which carry the `perf_` prefix, which
`ts` and `tid` do not, so keeping them apart is faithful). -/
structure PerfRecord : Type where
  ts : Int
  tid : Int
  counters : List (String × Int)
deriving DecidableEq, Repr

/-- A per-process metadata entry `{pname, threads: {tid: {pname}}}`;
the inner one-key dictionaries are represented by the `pname` string
they carry. -/
structure PidMeta : Type where
  pname : String
  threads : List (String × String)
deriving DecidableEq, Repr

/-- The output-side mutable state of a `Perf` object: the in-memory
record buffer `self.perf` and `self.json_metadata`. -/
structure PerfState : Type where
  perf : List PerfRecord
  json_metadata : List (Int × PidMeta)
deriving DecidableEq, Repr

/-- The event fields read by `output_perf`. -/
structure PEvent : Type where
  name : String
  timestamp : Int
  prev_tid : Int
deriving DecidableEq, Repr

/-- `Perf.log_perf_event_json`: append the record to the in-memory
buffer and create or update the `{pname, threads}` metadata entry for
`pid` (the `ts` argument is accepted and ignored, as in the source; the
in-place mutation of an existing entry is modelled as a lookup followed
by writing the updated entry back at the same key). -/
def log_perf_event_json (ts : Int) (comm : String) (tid pid : Int) (ret : PerfRecord)
    (ps : PerfState) : PerfState :=
  if pid = tid then
    let md1 :=
      match alookup ps.json_metadata pid with
      | none => dset ps.json_metadata pid { pname := comm, threads := [] }
      | some m =>
        if m.pname ≠ comm then dset ps.json_metadata pid { m with pname := comm }
        else ps.json_metadata
    { perf := ps.perf ++ [ret], json_metadata := md1 }
  else
    let m0 : PidMeta :=
      match alookup ps.json_metadata pid with
      | none => { pname := "unknown", threads := [] }
      | some m => m
    let tid_str := toString tid
    let m1 : PidMeta :=
      match alookup m0.threads tid_str with
      | none => { m0 with threads := dset m0.threads tid_str comm }
      | some pn =>
        if pn ≠ comm then { m0 with threads := dset m0.threads tid_str comm }
        else m0
    { perf := ps.perf ++ [ret], json_metadata := dset ps.json_metadata pid m1 }

/-- `Perf.output_perf`: apply, in order, the tid allow-list filter, the
`self.state.tids[tid]` lookup (a bare subscript: `KeyError` when the
tid is unknown), the `pid == -1` fixup, the process-name filter, the
event-name guard, and the time-window filters; then compute `insert`
(true exactly when some key of the record carries the `perf_` namespace
and a json or mongo sink is configured) and hand the record to
`log_perf_event_json` when it is set.  The `endtime` string formatting
and the `print` are I/O and not modelled; `log_perf_event_json` ignores
its `ts` argument, so the raw timestamp is passed through. -/
def output_perf (args : Args) (tids : List (Int × TidState)) (ps : PerfState) (ev : PEvent)
    (ret : PerfRecord) : Except PyErr PerfState :=
  if tidDrop args.tid ev.prev_tid then .ok ps
  else
    match alookup tids ev.prev_tid with
    | none => .error .keyError
    | some th =>
      if pnameDrop args.pname th.comm then .ok ps
      else if ev.name ≠ "sched_switch" then .ok ps
      else if startDrop args.start ev.timestamp then .ok ps
      else if endDrop args.end_arg ev.timestamp then .ok ps
      else
        if ret.counters.any (fun cv => startswith cv.1 "perf_")
            && (truthyStr args.json || truthyStr args.mongo) then
          .ok (log_perf_event_json ev.timestamp th.comm ev.prev_tid
                (if th.pid = -1 then ev.prev_tid else th.pid) ret ps)
        else .ok ps

/-- The counter loop of `process_event`: walk the keys of the delta map
returned by the Scheduler State Tracker in order; skip keys rejected by
the type filter or missing the `perf_` namespace; for a surviving key
store the returned delta when the delta flag is set and the stored
cumulative value `self.state.tids[tid].perf[context]` of the thread otherwise
(both bare subscripts: `KeyError` when absent). -/
def build_counters (types : Option (List String)) (delta : Bool)
    (tids : List (Int × TidState)) (tid : Int) :
    List (String × Int) → Except PyErr (List (String × Int))
  | [] => .ok []
  | (ctx, v) :: rest =>
    if typesSkip types ctx then build_counters types delta tids tid rest
    else if startswith ctx "perf_" then
      if delta then
        match build_counters types delta tids tid rest with
        | .error e => .error e
        | .ok r => .ok ((ctx, v) :: r)
      else
        match alookup tids tid with
        | none => .error .keyError
        | some th =>
          match alookup th.perf ctx with
          | none => .error .keyError
          | some cum =>
            match build_counters types delta tids tid rest with
            | .error e => .error e
            | .ok r => .ok ((ctx, cum) :: r)
    else build_counters types delta tids tid rest

/-- One `sched_switch` event as seen by the emitter: the timestamp and
`prev_tid` of the event, the scheduler-state Thread Registry at that
moment, and the counter-delta map returned by
`self.state.sched.switch(event)` (the Scheduler State Tracker lives in
`LTTngAnalyzes/state.py`, outside this snapshot, so its result is an
input here). -/
structure EmitInput : Type where
  ts : Int
  prev_tid : Int
  tids : List (Int × TidState)
  ret : List (String × Int)
deriving DecidableEq, Repr

/-- The `sched_switch` branch of `Perf.process_event`: when the delta
map is non-empty, build the record `d = {ts, tid, surviving counters}`
and hand it to `output_perf`. -/
def process_event (types : Option (List String)) (args : Args) (ps : PerfState)
    (i : EmitInput) : PerfState × Option PyErr :=
  if i.ret.isEmpty then (ps, none)
  else
    match build_counters types args.delta i.tids i.prev_tid i.ret with
    | .error e => (ps, some e)
    | .ok cs =>
      match output_perf args i.tids ps
              { name := "sched_switch", timestamp := i.ts, prev_tid := i.prev_tid }
              { ts := i.ts, tid := i.prev_tid, counters := cs } with
      | .error e => (ps, some e)
      | .ok ps1 => (ps1, none)

/-- The event loop of `Perf.run` restricted to `sched_switch` events:
process inputs in order; an escaping exception aborts the loop. -/
def run_emit (types : Option (List String)) (args : Args) (ps : PerfState) :
    List EmitInput → PerfState × Option PyErr
  | [] => (ps, none)
  | i :: rest =>
    match process_event types args ps i with
    | (ps1, none) => run_emit types args ps1 rest
    | (ps1, some e) => (ps1, some e)

/-! ## C8: delta vs cumulative values in the emitted record -/

theorem build_counters_lookup (types : Option (List String)) (delta : Bool)
    (tids : List (Int × TidState)) (tid : Int) :
    ∀ (ret cs : List (String × Int)) (ctx : String) (v : Int),
      (ctx, v) ∈ ret → (ret.map Prod.fst).Nodup → typesSkip types ctx = false →
      startswith ctx "perf_" = true → build_counters types delta tids tid ret = .ok cs →
      (delta = true → alookup cs ctx = some v) ∧
      (delta = false → ∃ th, alookup tids tid = some th ∧
        alookup cs ctx = alookup th.perf ctx) := by
  intro ret
  induction ret with
  | nil =>
    intro cs ctx v hmem
    cases hmem
  | cons hd rest ih =>
    obtain ⟨k, w⟩ := hd
    intro cs ctx v hmem hnd hskip hperf hok
    rw [List.map_cons, List.nodup_cons] at hnd
    obtain ⟨hknotin, hnd2⟩ := hnd
    rw [List.mem_cons] at hmem
    cases hmem with
    | inl hpair =>
      rw [Prod.mk.injEq] at hpair
      obtain ⟨rfl, rfl⟩ := hpair
      simp only [build_counters, hskip, Bool.false_eq_true, if_false, hperf, if_true] at hok
      cases delta with
      | true =>
        refine ⟨fun _ => ?_, fun hfalse => absurd hfalse (by simp)⟩
        rw [if_pos rfl] at hok
        cases hrest : build_counters types true tids tid rest with
        | error e =>
          simp only [hrest] at hok
          simp at hok
        | ok r =>
          simp only [hrest, Except.ok.injEq] at hok
          subst hok
          simp [alookup]
      | false =>
        refine ⟨fun htrue => absurd htrue (by simp), fun _ => ?_⟩
        rw [if_neg (by simp)] at hok
        cases hth : alookup tids tid with
        | none =>
          simp only [hth] at hok
          simp at hok
        | some th =>
          simp only [hth] at hok
          cases hcum : alookup th.perf ctx with
          | none =>
            simp only [hcum] at hok
            simp at hok
          | some cum =>
            simp only [hcum] at hok
            cases hrest : build_counters types false tids tid rest with
            | error e =>
              simp only [hrest] at hok
              simp at hok
            | ok r =>
              simp only [hrest, Except.ok.injEq] at hok
              subst hok
              exact ⟨th, rfl, by simp [alookup, hcum]⟩
    | inr hmemrest =>
      have hkc : ¬(k = ctx) := by
        intro e
        subst e
        have hmm : k ∈ List.map Prod.fst rest := List.mem_map_of_mem Prod.fst hmemrest
        exact hknotin hmm
      simp only [build_counters] at hok
      by_cases hskipk : typesSkip types k = true
      · rw [if_pos hskipk] at hok
        exact ih cs ctx v hmemrest hnd2 hskip hperf hok
      · rw [if_neg hskipk] at hok
        by_cases hperfk : startswith k "perf_" = true
        · rw [if_pos hperfk] at hok
          cases delta with
          | true =>
            rw [if_pos rfl] at hok
            cases hrest : build_counters types true tids tid rest with
            | error e =>
              simp only [hrest] at hok
              simp at hok
            | ok r =>
              simp only [hrest, Except.ok.injEq] at hok
              subst hok
              have hr := ih r ctx v hmemrest hnd2 hskip hperf hrest
              refine ⟨fun _ => ?_, fun hfalse => absurd hfalse (by simp)⟩
              simp only [alookup, hkc, if_false]
              exact hr.1 rfl
          | false =>
            rw [if_neg (by simp)] at hok
            cases hth : alookup tids tid with
            | none =>
              simp only [hth] at hok
              simp at hok
            | some th =>
              simp only [hth] at hok
              cases hcum : alookup th.perf k with
              | none =>
                simp only [hcum] at hok
                simp at hok
              | some cum =>
                simp only [hcum] at hok
                cases hrest : build_counters types false tids tid rest with
                | error e =>
                  simp only [hrest] at hok
                  simp at hok
                | ok r =>
                  simp only [hrest, Except.ok.injEq] at hok
                  subst hok
                  have hr := ih r ctx v hmemrest hnd2 hskip hperf hrest
                  refine ⟨fun htrue => absurd htrue (by simp), fun _ => ?_⟩
                  obtain ⟨th2, hth2, heq2⟩ := hr.2 rfl
                  rw [hth, Option.some.injEq] at hth2
                  subst hth2
                  refine ⟨th, rfl, ?_⟩
                  simp only [alookup, hkc, if_false]
                  exact heq2
        · rw [if_neg hperfk] at hok
          exact ih cs ctx v hmemrest hnd2 hskip hperf hok

/-- C8: for a schedule-switch event whose delta map (as returned by the
Scheduler State Tracker) is non-empty, and for every counter key of
that map that carries the `perf_` namespace and passes the configured
type filter, the record built by `process_event` maps that key to the
returned delta when the delta flag is set, and to the stored cumulative
value of the thread for that counter (looked up in the Thread Registry
entry of `prev_tid`) when it is not.  (Membership of the key in the
delta map makes the map non-empty; the keys of a Python dict are
pairwise distinct, whence the `Nodup` hypothesis.) -/
theorem c8_delta_vs_cumulative (types : Option (List String)) (delta : Bool)
    (tids : List (Int × TidState)) (tid : Int) (ret cs : List (String × Int))
    (ctx : String) (v : Int)
    (hmem : (ctx, v) ∈ ret)
    (hnd : (ret.map Prod.fst).Nodup)
    (hskip : typesSkip types ctx = false)
    (hperf : startswith ctx "perf_" = true)
    (hok : build_counters types delta tids tid ret = .ok cs) :
    (delta = true → alookup cs ctx = some v) ∧
    (delta = false → ∃ th, alookup tids tid = some th ∧
      alookup cs ctx = alookup th.perf ctx) :=
  build_counters_lookup types delta tids tid ret cs ctx v hmem hnd hskip hperf hok

/-- Concrete registry for the C8 witness. -/
def c8_tids : List (Int × TidState) := [(5, ⟨5, "bash", [("perf_x", 100)]⟩)]

theorem c8_delta_vs_cumulative_witness :
    ("perf_x", (7 : Int)) ∈ [("perf_x", (7 : Int))] ∧
    ([("perf_x", (7 : Int))].map Prod.fst).Nodup ∧
    typesSkip none "perf_x" = false ∧
    startswith "perf_x" "perf_" = true ∧
    build_counters none false c8_tids 5 [("perf_x", (7 : Int))] = .ok [("perf_x", (100 : Int))] ∧
    ((false = true → alookup [("perf_x", (100 : Int))] "perf_x" = some 7) ∧
     (false = false → ∃ th, alookup c8_tids 5 = some th ∧
       alookup [("perf_x", (100 : Int))] "perf_x" = alookup th.perf "perf_x")) :=
  ⟨by decide, by decide, by decide, by decide, by rfl,
   c8_delta_vs_cumulative none false c8_tids 5 [("perf_x", 7)] [("perf_x", 100)] "perf_x" 7
     (by decide) (by decide) (by decide) (by decide) (by rfl)⟩

/-! ## C4: what happens to an emitted record -/

theorem log_perf_perf (ts : Int) (comm : String) (tid pid : Int) (ret : PerfRecord)
    (ps : PerfState) : (log_perf_event_json ts comm tid pid ret ps).perf = ps.perf ++ [ret] := by
  unfold log_perf_event_json
  dsimp only
  split <;> rfl

theorem log_perf_metadata (ts : Int) (comm : String) (tid pid : Int) (ret : PerfRecord)
    (ps : PerfState) :
    ∃ m, alookup (log_perf_event_json ts comm tid pid ret ps).json_metadata pid = some m ∧
      (pid = tid → m.pname = comm) ∧
      (pid ≠ tid → alookup m.threads (toString tid) = some comm) := by
  unfold log_perf_event_json
  dsimp only
  by_cases hpt : pid = tid
  · rw [if_pos hpt]
    dsimp only
    cases hmd : alookup ps.json_metadata pid with
    | none =>
      exact ⟨⟨comm, []⟩, alookup_dset_self _ _ _, fun _ => rfl, fun hne => absurd hpt hne⟩
    | some m =>
      dsimp only
      by_cases hpn : m.pname ≠ comm
      · rw [if_pos hpn]
        exact ⟨{ m with pname := comm }, alookup_dset_self _ _ _, fun _ => rfl,
          fun hne => absurd hpt hne⟩
      · rw [if_neg hpn]
        exact ⟨m, hmd, fun _ => not_not.mp hpn, fun hne => absurd hpt hne⟩
  · rw [if_neg hpt]
    dsimp only
    cases hmd : alookup ps.json_metadata pid with
    | none =>
      dsimp only [alookup]
      refine ⟨_, alookup_dset_self _ _ _, fun heq => absurd heq hpt, fun _ => ?_⟩
      dsimp only
      exact alookup_dset_self _ _ _
    | some m =>
      dsimp only
      cases hth2 : alookup m.threads (toString tid) with
      | none =>
        dsimp only
        refine ⟨_, alookup_dset_self _ _ _, fun heq => absurd heq hpt, fun _ => ?_⟩
        dsimp only
        exact alookup_dset_self _ _ _
      | some pn =>
        dsimp only
        by_cases hpncomm : pn ≠ comm
        · rw [if_pos hpncomm]
          refine ⟨_, alookup_dset_self _ _ _, fun heq => absurd heq hpt, fun _ => ?_⟩
          dsimp only
          exact alookup_dset_self _ _ _
        · rw [if_neg hpncomm]
          refine ⟨m, alookup_dset_self _ _ _, fun heq => absurd heq hpt, fun _ => ?_⟩
          rw [hth2]
          exact congrArg some (not_not.mp hpncomm)

/-- Unfiltered configuration with no sink configured. -/
def c4_args : Args :=
  { tid := none, pname := none, start := none, end_arg := none,
    unixtime := false, delta := false, json := none, mongo := none, quiet := false }

/-- The same configuration with the json sink configured. -/
def c4_args2 : Args := { c4_args with json := some "out" }

/-- Registry, event and record for the C4 scenario. -/
def c4_tids : List (Int × TidState) := [(5, ⟨5, "bash", []⟩)]

def c4_ev : PEvent := ⟨"sched_switch", 100, 5⟩

def c4_ret : PerfRecord := ⟨100, 5, [("perf_x", 3)]⟩

/-- C4 counterexample: the claim says every record passing the filters
and carrying a counter-namespaced field is appended to the in-memory
buffer and creates a metadata entry regardless of which sinks are
configured.  With no sink configured (`json` and `mongo` both unset),
this record passes every filter and carries `perf_x`, yet `output_perf`
leaves the state untouched: `insert` is only ever set inside
`if self.args.json or self.args.mongo`. -/
theorem c4_counterexample :
    tidDrop c4_args.tid 5 = false ∧
    alookup c4_tids 5 = some ⟨5, "bash", []⟩ ∧
    pnameDrop c4_args.pname "bash" = false ∧
    c4_ev.name = "sched_switch" ∧
    startDrop c4_args.start 100 = false ∧
    endDrop c4_args.end_arg 100 = false ∧
    c4_ret.counters.any (fun cv => startswith cv.1 "perf_") = true ∧
    c4_args.json = none ∧
    c4_args.mongo = none ∧
    output_perf c4_args c4_tids ⟨[], []⟩ c4_ev c4_ret = .ok ⟨[], []⟩ :=
  ⟨by decide, by decide, by decide, rfl, by decide, by decide, by decide, rfl, rfl, by rfl⟩

/-- C4 (amended): every record that passes the tid, process-name and
time-window filters and carries at least one `perf_`-namespaced field
is appended to the in-memory output buffer and triggers creation or
update of the per-process/per-thread metadata entry — provided a json
or mongo sink is configured; with neither sink configured the record is
only printed and neither the buffer nor the metadata is touched. -/
theorem c4_amended (args : Args) (tids : List (Int × TidState)) (ps : PerfState)
    (ev : PEvent) (ret : PerfRecord) (th : TidState)
    (h0 : alookup tids ev.prev_tid = some th)
    (h1 : tidDrop args.tid ev.prev_tid = false)
    (h2 : pnameDrop args.pname th.comm = false)
    (h3 : ev.name = "sched_switch")
    (h4 : startDrop args.start ev.timestamp = false)
    (h5 : endDrop args.end_arg ev.timestamp = false)
    (h6 : ret.counters.any (fun cv => startswith cv.1 "perf_") = true)
    (h7 : (truthyStr args.json || truthyStr args.mongo) = true) :
    ∃ ps1, output_perf args tids ps ev ret = .ok ps1 ∧
      ps1.perf = ps.perf ++ [ret] ∧
      ∃ m, alookup ps1.json_metadata (if th.pid = -1 then ev.prev_tid else th.pid) = some m ∧
        ((if th.pid = -1 then ev.prev_tid else th.pid) = ev.prev_tid → m.pname = th.comm) ∧
        ((if th.pid = -1 then ev.prev_tid else th.pid) ≠ ev.prev_tid →
          alookup m.threads (toString ev.prev_tid) = some th.comm) := by
  have hout : output_perf args tids ps ev ret
      = .ok (log_perf_event_json ev.timestamp th.comm ev.prev_tid
              (if th.pid = -1 then ev.prev_tid else th.pid) ret ps) := by
    unfold output_perf
    simp [h0, h1, h2, h3, h4, h5, h6, h7]
  refine ⟨_, hout, log_perf_perf _ _ _ _ _ _, ?_⟩
  exact log_perf_metadata _ _ _ _ _ _

theorem c4_amended_witness :
    alookup c4_tids 5 = some ⟨5, "bash", []⟩ ∧
    tidDrop c4_args2.tid 5 = false ∧
    pnameDrop c4_args2.pname "bash" = false ∧
    c4_ev.name = "sched_switch" ∧
    startDrop c4_args2.start 100 = false ∧
    endDrop c4_args2.end_arg 100 = false ∧
    c4_ret.counters.any (fun cv => startswith cv.1 "perf_") = true ∧
    (truthyStr c4_args2.json || truthyStr c4_args2.mongo) = true ∧
    (∃ ps1, output_perf c4_args2 c4_tids ⟨[], []⟩ c4_ev c4_ret = .ok ps1 ∧
      ps1.perf = (PerfState.mk [] []).perf ++ [c4_ret] ∧
      ∃ m, alookup ps1.json_metadata (if (5 : Int) = -1 then (5 : Int) else 5) = some m ∧
        ((if (5 : Int) = -1 then (5 : Int) else 5) = 5 → m.pname = "bash") ∧
        ((if (5 : Int) = -1 then (5 : Int) else 5) ≠ 5 →
          alookup m.threads (toString (5 : Int)) = some "bash")) :=
  ⟨by decide, by decide, by decide, rfl, by decide, by decide, by decide, by decide,
   c4_amended c4_args2 c4_tids ⟨[], []⟩ c4_ev c4_ret ⟨5, "bash", []⟩
     (by decide) (by decide) (by decide) rfl (by decide) (by decide) (by decide) (by decide)⟩

/-! ## C5: the tid allow-list filter selects exactly its records -/

/-- Whether `output_perf` reaches `log_perf_event_json`: all filters
pass and the record carries a `perf_` key while a sink is configured. -/
def emitsB (args : Args) (tids : List (Int × TidState)) (ev : PEvent) (ret : PerfRecord) : Bool :=
  !tidDrop args.tid ev.prev_tid &&
  (match alookup tids ev.prev_tid with
   | none => false
   | some th =>
     !pnameDrop args.pname th.comm &&
     (ev.name == "sched_switch") &&
     !startDrop args.start ev.timestamp &&
     !endDrop args.end_arg ev.timestamp &&
     (ret.counters.any (fun cv => startswith cv.1 "perf_")
       && (truthyStr args.json || truthyStr args.mongo)))

/-- The records that one input contributes to the in-memory buffer. -/
def emit_of (types : Option (List String)) (args : Args) (i : EmitInput) : List PerfRecord :=
  if i.ret.isEmpty then []
  else
    match build_counters types args.delta i.tids i.prev_tid i.ret with
    | .error _ => []
    | .ok cs =>
      if emitsB args i.tids ⟨"sched_switch", i.ts, i.prev_tid⟩ ⟨i.ts, i.prev_tid, cs⟩
      then [⟨i.ts, i.prev_tid, cs⟩] else []

/-- An input on which processing cannot raise: its `prev_tid` is
registered (the Scheduler State Tracker registers `prev_tid` during
`switch`, so this holds for every record reaching the emitter) and, in
cumulative mode, every surviving counter key has a stored baseline. -/
def input_safe (types : Option (List String)) (delta : Bool) (i : EmitInput) : Bool :=
  match alookup i.tids i.prev_tid with
  | none => false
  | some th =>
    delta || i.ret.all (fun cv =>
      typesSkip types cv.1 || !startswith cv.1 "perf_" || (alookup th.perf cv.1).isSome)

theorem build_counters_ok (types : Option (List String)) (delta : Bool)
    (tids : List (Int × TidState)) (tid : Int) (th : TidState)
    (hth : alookup tids tid = some th) :
    ∀ ret : List (String × Int),
      (delta || ret.all (fun cv =>
        typesSkip types cv.1 || !startswith cv.1 "perf_" || (alookup th.perf cv.1).isSome)) = true →
      ∃ cs, build_counters types delta tids tid ret = .ok cs := by
  intro ret
  induction ret with
  | nil =>
    intro _
    exact ⟨[], rfl⟩
  | cons hd rest ih =>
    obtain ⟨k, w⟩ := hd
    intro hsafe
    simp only [build_counters]
    by_cases hskipk : typesSkip types k = true
    · rw [if_pos hskipk]
      refine ih ?_
      cases delta with
      | true => simp
      | false =>
        simp only [Bool.false_or, List.all_cons, Bool.and_eq_true] at hsafe
        simp [hsafe.2]
    · rw [if_neg hskipk]
      by_cases hperfk : startswith k "perf_" = true
      · rw [if_pos hperfk]
        cases delta with
        | true =>
          obtain ⟨cs, hcs⟩ := ih (by simp)
          rw [if_pos rfl, hcs]
          exact ⟨(k, w) :: cs, rfl⟩
        | false =>
          simp only [Bool.false_or, List.all_cons, Bool.and_eq_true] at hsafe
          obtain ⟨hhead, hrest⟩ := hsafe
          rw [if_neg (by simp)]
          rw [hth]
          dsimp only
          have hskipk2 : typesSkip types k = false := by
            cases h : typesSkip types k
            · rfl
            · exact absurd h hskipk
          rw [hskipk2, hperfk] at hhead
          simp only [Bool.false_or, Bool.not_true] at hhead
          obtain ⟨cum, hcum⟩ := Option.isSome_iff_exists.mp hhead
          rw [hcum]
          obtain ⟨cs, hcs⟩ := ih (by simp [hrest])
          rw [hcs]
          exact ⟨(k, cum) :: cs, rfl⟩
      · rw [if_neg hperfk]
        refine ih ?_
        cases delta with
        | true => simp
        | false =>
          simp only [Bool.false_or, List.all_cons, Bool.and_eq_true] at hsafe
          simp [hsafe.2]

theorem output_perf_perf_eq (args : Args) (tids : List (Int × TidState)) (ps : PerfState)
    (ev : PEvent) (ret : PerfRecord) (th : TidState)
    (hth : alookup tids ev.prev_tid = some th) :
    ∃ ps1, output_perf args tids ps ev ret = .ok ps1 ∧
      ps1.perf = ps.perf ++ (if emitsB args tids ev ret = true then [ret] else []) := by
  unfold output_perf
  by_cases h1 : tidDrop args.tid ev.prev_tid = true
  · rw [if_pos h1]
    refine ⟨ps, rfl, ?_⟩
    have he : emitsB args tids ev ret = false := by simp [emitsB, h1]
    rw [he]
    simp
  · rw [if_neg h1, hth]
    dsimp only
    by_cases h2 : pnameDrop args.pname th.comm = true
    · rw [if_pos h2]
      refine ⟨ps, rfl, ?_⟩
      have he : emitsB args tids ev ret = false := by simp [emitsB, hth, h2]
      rw [he]
      simp
    · rw [if_neg h2]
      by_cases h3 : ev.name = "sched_switch"
      · rw [if_neg (not_not_intro h3)]
        by_cases h4 : startDrop args.start ev.timestamp = true
        · rw [if_pos h4]
          refine ⟨ps, rfl, ?_⟩
          have he : emitsB args tids ev ret = false := by simp [emitsB, hth, h4]
          rw [he]
          simp
        · rw [if_neg h4]
          by_cases h5 : endDrop args.end_arg ev.timestamp = true
          · rw [if_pos h5]
            refine ⟨ps, rfl, ?_⟩
            have he : emitsB args tids ev ret = false := by simp [emitsB, hth, h5]
            rw [he]
            simp
          · rw [if_neg h5]
            by_cases h6 : (ret.counters.any (fun cv => startswith cv.1 "perf_")
                && (truthyStr args.json || truthyStr args.mongo)) = true
            · rw [if_pos h6]
              refine ⟨_, rfl, ?_⟩
              rw [log_perf_perf]
              have he : emitsB args tids ev ret = true := by
                simp only [emitsB, hth]
                simp only [Bool.not_eq_true'] at h1 h2 h4 h5
                simp [h1, h2, h3, h4, h5, h6]
              rw [he]
              simp
            · rw [if_neg h6]
              refine ⟨ps, rfl, ?_⟩
              have he : emitsB args tids ev ret = false := by
                simp only [emitsB, hth]
                simp only [Bool.not_eq_true] at h6
                simp [h6]
              rw [he]
              simp
      · rw [if_pos h3]
        refine ⟨ps, rfl, ?_⟩
        have he : emitsB args tids ev ret = false := by
          have hne : (ev.name == "sched_switch") = false := by
            simp [h3]
          simp [emitsB, hth, hne]
        rw [he]
        simp

theorem process_event_ok (types : Option (List String)) (args : Args) (ps : PerfState)
    (i : EmitInput) (hsafe : input_safe types args.delta i = true) :
    ∃ ps1, process_event types args ps i = (ps1, none) ∧
      ps1.perf = ps.perf ++ emit_of types args i := by
  unfold process_event
  by_cases hret : i.ret.isEmpty = true
  · rw [if_pos hret]
    refine ⟨ps, rfl, ?_⟩
    simp [emit_of, hret]
  · rw [if_neg hret]
    unfold input_safe at hsafe
    cases hth : alookup i.tids i.prev_tid with
    | none =>
      rw [hth] at hsafe
      simp at hsafe
    | some th =>
      rw [hth] at hsafe
      dsimp only at hsafe
      obtain ⟨cs, hcs⟩ := build_counters_ok types args.delta i.tids i.prev_tid th hth i.ret hsafe
      rw [hcs]
      dsimp only
      obtain ⟨ps1, hout, hperf⟩ :=
        output_perf_perf_eq args i.tids ps
          ⟨"sched_switch", i.ts, i.prev_tid⟩ ⟨i.ts, i.prev_tid, cs⟩ th hth
      rw [hout]
      refine ⟨ps1, rfl, ?_⟩
      rw [hperf]
      have hne : i.ret.isEmpty = false := by
        cases h : i.ret.isEmpty
        · rfl
        · exact absurd h hret
      simp [emit_of, hne, hcs]

theorem run_emit_perf (types : Option (List String)) (args : Args) :
    ∀ (l : List EmitInput) (ps : PerfState),
      (∀ i ∈ l, input_safe types args.delta i = true) →
      ∃ psf, run_emit types args ps l = (psf, none) ∧
        psf.perf = ps.perf ++ (l.map (emit_of types args)).flatten := by
  intro l
  induction l with
  | nil =>
    intro ps _
    exact ⟨ps, rfl, by simp⟩
  | cons i rest ih =>
    intro ps hsafe
    obtain ⟨ps1, hstep, hperf⟩ :=
      process_event_ok types args ps i (hsafe i (List.mem_cons_self i rest))
    obtain ⟨psf, hrun, hperf2⟩ := ih ps1 (fun j hj => hsafe j (List.mem_cons_of_mem i hj))
    refine ⟨psf, ?_, ?_⟩
    · unfold run_emit
      rw [hstep]
      exact hrun
    · rw [hperf2, hperf]
      simp [List.flatten_cons, List.append_assoc]

theorem emitsB_tid_filter (args : Args) (T : String) (tids : List (Int × TidState))
    (ev : PEvent) (ret : PerfRecord) (hbase : args.tid = none) :
    emitsB { args with tid := some [T] } tids ev ret
      = ((toString ev.prev_tid == T) && emitsB args tids ev ret) := by
  have htd : tidDrop (some [T]) ev.prev_tid = !(toString ev.prev_tid == T) := by
    cases hx : (toString ev.prev_tid == T) with
    | false =>
      simp only [tidDrop, Bool.not_false]
      simp [hx]
      intro h
      rw [h] at hx
      simp at hx
    | true =>
      simp only [tidDrop, Bool.not_true]
      simp [hx]
      exact beq_iff_eq.mp hx
  unfold emitsB
  rw [hbase]
  dsimp only
  rw [htd]
  rw [show tidDrop none ev.prev_tid = false from rfl]
  cases hx : (toString ev.prev_tid == T) <;> simp [hx]

theorem emit_of_tid_filter (types : Option (List String)) (args : Args) (T : String)
    (i : EmitInput) (hbase : args.tid = none) :
    emit_of types { args with tid := some [T] } i
      = (emit_of types args i).filter (fun r => toString r.tid == T) := by
  unfold emit_of
  by_cases hret : i.ret.isEmpty = true
  · simp [hret]
  · simp only [hret, Bool.false_eq_true, if_false]
    cases hcs : build_counters types args.delta i.tids i.prev_tid i.ret with
    | error e => simp
    | ok cs =>
      dsimp only
      rw [emitsB_tid_filter args T i.tids ⟨"sched_switch", i.ts, i.prev_tid⟩
        ⟨i.ts, i.prev_tid, cs⟩ hbase]
      cases he : emitsB args i.tids ⟨"sched_switch", i.ts, i.prev_tid⟩ ⟨i.ts, i.prev_tid, cs⟩ with
      | false => simp
      | true =>
        cases htid : (toString i.prev_tid == T) with
        | false => simp [List.filter, htid]
        | true => simp [List.filter, htid]

theorem join_map_filter_eq {α : Type} (f g : EmitInput → List α) (p : α → Bool)
    (l : List EmitInput) (h : ∀ i ∈ l, f i = (g i).filter p) :
    (l.map f).flatten = ((l.map g).flatten).filter p := by
  induction l with
  | nil => rfl
  | cons i rest ih =>
    simp only [List.map_cons, List.flatten_cons, List.filter_append]
    rw [h i (List.mem_cons_self i rest), ih (fun j hj => h j (List.mem_cons_of_mem i hj))]

/-- C5: running the emitter with tid allow-list `{T}` produces exactly
the records of the unfiltered run whose `tid` stringifies to `T`: the
runs are both error-free (given inputs on which the unfiltered run
cannot raise) and the filtered buffer is the `tid == T` subset of the
unfiltered buffer.  The three filters are applied in the order of the
translated `output_perf`: tid allow-list first — witnessed by the last
conjunct: a tid-filtered event is dropped before the Thread Registry
subscript, so even an unregistered tid raises nothing — then process
name, then the `[start, end]` window; each is disabled when unset, as
the four `...Drop` conjuncts state. -/
theorem c5_tid_filter_subset (types : Option (List String)) (args : Args) (T : String)
    (l : List EmitInput) (tid0 ts0 : Int) (comm0 : String)
    (args2 : Args) (tids2 : List (Int × TidState)) (ps2 : PerfState)
    (ev2 : PEvent) (ret2 : PerfRecord)
    (hbase : args.tid = none)
    (hsafe : l.all (fun i => input_safe types args.delta i) = true) :
    (∃ psT psU,
      run_emit types { args with tid := some [T] } ⟨[], []⟩ l = (psT, none) ∧
      run_emit types args ⟨[], []⟩ l = (psU, none) ∧
      psT.perf = psU.perf.filter (fun r => toString r.tid == T)) ∧
    tidDrop none tid0 = false ∧
    pnameDrop none comm0 = false ∧
    startDrop none ts0 = false ∧
    endDrop none ts0 = false ∧
    (tidDrop args2.tid ev2.prev_tid = true →
      output_perf args2 tids2 ps2 ev2 ret2 = .ok ps2) := by
  have hsafe2 : ∀ i ∈ l, input_safe types args.delta i = true := by
    intro i hi
    exact List.all_eq_true.mp hsafe i hi
  refine ⟨?_, rfl, rfl, rfl, rfl, ?_⟩
  · obtain ⟨psU, hU, hUperf⟩ := run_emit_perf types args l ⟨[], []⟩ hsafe2
    obtain ⟨psT, hT, hTperf⟩ :=
      run_emit_perf types { args with tid := some [T] } l ⟨[], []⟩ hsafe2
    refine ⟨psT, psU, hT, hU, ?_⟩
    rw [hTperf, hUperf]
    dsimp only
    simp only [List.nil_append]
    exact join_map_filter_eq _ _ _ l (fun i _ => emit_of_tid_filter types args T i hbase)
  · intro h
    unfold output_perf
    rw [if_pos h]

/-- Registries and inputs for the C5 witness: two threads, two switch
events, run in delta mode with a json sink configured. -/
def c5_tids : List (Int × TidState) := [(5, ⟨5, "bash", []⟩), (6, ⟨6, "vim", []⟩)]

def c5_args : Args :=
  { tid := none, pname := none, start := none, end_arg := none,
    unixtime := false, delta := true, json := some "out", mongo := none, quiet := false }

def c5_inputs : List EmitInput :=
  [⟨100, 5, c5_tids, [("perf_x", 3)]⟩, ⟨200, 6, c5_tids, [("perf_y", 4)]⟩]

/-- Configuration and event for the order conjunct of the C5 witness:
the allow-list excludes tid 5, whose tid is not even registered. -/
def c5_args2 : Args := { c5_args with tid := some ["9"] }

def c5_ev2 : PEvent := ⟨"sched_switch", 100, 5⟩

theorem c5_tid_filter_subset_witness :
    c5_args.tid = none ∧
    c5_inputs.all (fun i => input_safe none c5_args.delta i) = true ∧
    ((∃ psT psU,
      run_emit none { c5_args with tid := some ["5"] } ⟨[], []⟩ c5_inputs = (psT, none) ∧
      run_emit none c5_args ⟨[], []⟩ c5_inputs = (psU, none) ∧
      psT.perf = psU.perf.filter (fun r => toString r.tid == "5")) ∧
     tidDrop none 7 = false ∧
     pnameDrop none "bash" = false ∧
     startDrop none 100 = false ∧
     endDrop none 100 = false ∧
     (tidDrop c5_args2.tid c5_ev2.prev_tid = true →
       output_perf c5_args2 [] ⟨[], []⟩ c5_ev2 ⟨100, 5, [("perf_x", 3)]⟩ = .ok ⟨[], []⟩)) :=
  ⟨rfl, by decide,
   c5_tid_filter_subset none c5_args "5" c5_inputs 7 100 "bash"
     c5_args2 [] ⟨[], []⟩ c5_ev2 ⟨100, 5, [("perf_x", 3)]⟩ rfl (by decide)⟩
